import Mathlib

/-!
Verification development for the Best Buy product-intake scraper
(`n8n_main_scraper.py`, `n8n_list_scraper.py`, `scraper_server.py`).

The scraper's pure, page-level logic is shallowly embedded here:
HTML documents become an inductive tree (the HTML parsing collaborator is
out of scope of the repository), the Selenium-driven parts (navigation,
disclosure clicks, live-element queries) become explicit data fed to the
pipeline, and Python's regular-expression searches are implemented
directly for the concrete patterns the source uses.

All characters relevant to the source's patterns are ASCII; Python's
`str.lower`, `str.strip` and the `re` character classes are modelled on
that fragment.
-/

namespace Scraper

/-! ## Python-style character and string primitives -/

/-- Python whitespace (`\s`, `str.strip`, `str.isspace`) on the ASCII fragment. -/
def pyIsSpace (c : Char) : Bool :=
  c = ' ' || c = '\t' || c = '\n' || c = '\x0d' || c = '\x0b' || c = '\x0c'

/-- The character class `[\s:]` used by the UPC / model label regexes. -/
def isLabelSep (c : Char) : Bool :=
  pyIsSpace c || c = ':'

/-- The character class `[A-Z0-9]` under `re.IGNORECASE` (ASCII letters and digits). -/
def isAlnumCI (c : Char) : Bool :=
  c.isDigit || ('A' ≤ c && c ≤ 'Z') || ('a' ≤ c && c ≤ 'z')

/-- Characterwise lowering, matching Python `str.lower` on ASCII. -/
def lowerL (l : List Char) : List Char := l.map Char.toLower

/-- `startsWithL hay needle` : does `hay` start with `needle`? -/
def startsWithL : List Char → List Char → Bool
  | _, [] => true
  | [], _ :: _ => false
  | c :: cs, d :: ds => c = d && startsWithL cs ds

/-- Case-insensitive version; `needle` is given already lowercased. -/
def startsWithCI : List Char → List Char → Bool
  | _, [] => true
  | [], _ :: _ => false
  | c :: cs, d :: ds => c.toLower = d && startsWithCI cs ds

/-- Python's `needle in hay` substring test. -/
def containsL : List Char → List Char → Bool
  | [], needle => needle.isEmpty
  | c :: cs, needle => startsWithL (c :: cs) needle || containsL cs needle

/-- Substring test on `String`s. -/
def containsS (hay needle : String) : Bool :=
  containsL hay.toList needle.toList

/-- Index of the first occurrence of `needle` in `hay` (Python `str.find`, as an option). -/
def firstIdxOf : List Char → List Char → Option Nat
  | [], needle => if needle.isEmpty then some 0 else none
  | c :: cs, needle =>
      if startsWithL (c :: cs) needle then some 0
      else (firstIdxOf cs needle).map (· + 1)

/-- Python `str.strip()` (whitespace from both ends). -/
def pyStrip (l : List Char) : List Char :=
  ((l.dropWhile pyIsSpace).reverse.dropWhile pyIsSpace).reverse

/-- Python `str.split(sep)` for a one-character separator: keeps empty chunks. -/
def splitOnChar (sep : Char) : List Char → List (List Char)
  | [] => [[]]
  | c :: cs =>
      if c = sep then [] :: splitOnChar sep cs
      else
        match splitOnChar sep cs with
        | h :: t => (c :: h) :: t
        | [] => [[c]]

/-- Python `' '.join(chunks)`. -/
def joinSpace (ls : List (List Char)) : List Char :=
  List.intercalate [' '] ls

def strOf (l : List Char) : String := String.mk l

example : containsS "the Model: X55" "Model" = true := by decide
example : containsS "bestbuy" "bestbuy.com" = false := by decide
example : splitOnChar '/' "a/b//c".toList = ["a".toList, "b".toList, [], "c".toList] := by decide
example : pyStrip "  ab c\n".toList = "ab c".toList := by decide
example : firstIdxOf "xout of stock in stock".toList "in stock".toList = some 14 := by decide

/-! ## The source's regular-expression searches

Each `re.search` the source performs uses one of two shapes:
a (case-insensitive) label followed by a separator run and a bounded
digit run, or a bare bounded digit run.  Since the separator classes are
disjoint from the digit class, Python's backtracking semantics collapse
to: at each start position (leftmost first), match a label alternative,
skip the maximal separator run, and take a maximal digit run, which must
reach the lower bound and is truncated (greedily) at the upper bound. -/

/-- Greedy `([0-9]{lo,hi})` at the current position. -/
def digitRunCapture (lo hi : Nat) (l : List Char) : Option (List Char) :=
  let run := l.takeWhile Char.isDigit
  if lo ≤ run.length then some (run.take hi) else none

/-- Leftmost-first search: try the position matcher `f` on every suffix. -/
def scanFirst (f : List Char → Option (List Char)) : List Char → Option (List Char)
  | [] => f []
  | c :: cs => f (c :: cs) <|> scanFirst f cs

/-- Try the label alternatives (already lowercased) in order at this
position; on a hit return the remainder after the label. -/
def labelAt (labels : List (List Char)) (l : List Char) : Option (List Char) :=
  match labels with
  | [] => none
  | lb :: rest => if startsWithCI l lb then some (l.drop lb.length) else labelAt rest l

/-- Position matcher for `LABEL SEP* ([0-9]{lo,hi})`. -/
def labeledDigitsAt (labels : List (List Char)) (skip : Char → Bool) (lo hi : Nat)
    (l : List Char) : Option (List Char) :=
  (labelAt labels l).bind fun r => digitRunCapture lo hi (r.dropWhile skip)

/-- `re.search` for `LABEL SEP* ([0-9]{lo,hi})` with `re.IGNORECASE`. -/
def searchLabeledDigits (labels : List (List Char)) (skip : Char → Bool) (lo hi : Nat)
    (t : List Char) : Option (List Char) :=
  scanFirst (labeledDigitsAt labels skip lo hi) t

/-- `re.search` for a bare `([0-9]{lo,hi})`. -/
def searchBareDigits (lo hi : Nat) (t : List Char) : Option (List Char) :=
  scanFirst (digitRunCapture lo hi) t

/-- `candidate = match.group(1).strip()` followed by
`if lo <= len(candidate) <= hi` — the acceptance check the source
performs on every captured candidate. -/
def lenGuard (lo hi : Nat) (o : Option (List Char)) : Option (List Char) :=
  o.bind fun g =>
    let u := pyStrip g
    if lo ≤ u.length && u.length ≤ hi then some u else none

/-- Variant with only the lower-bound check (`if len(candidate) >= lo`),
as in the live-panel UPC lookup. -/
def lenGuardLo (lo : Nat) (o : Option (List Char)) : Option (List Char) :=
  o.bind fun g =>
    let u := pyStrip g
    if lo ≤ u.length then some u else none

example :
    searchLabeledDigits ["upc".toList] isLabelSep 8 14 "has upc: 01234567 here".toList
      = some "01234567".toList := by decide
example :
    searchLabeledDigits ["upc".toList] isLabelSep 8 14 "upc 1234".toList = none := by decide
example :  -- leftmost occurrence with too few digits does not block a later one
    searchLabeledDigits ["upc".toList] isLabelSep 8 14 "upc 12, upc 87654321".toList
      = some "87654321".toList := by decide
example :  -- the [^0-9]* form skips arbitrary non-digit text after the label
    searchLabeledDigits ["upc".toList] (fun c => !c.isDigit) 11 14
      "UPC not shown. Call 180055512345 now".toList = some "180055512345".toList := by
  decide
example :
    searchLabeledDigits ["upc".toList] (fun c => !c.isDigit) 11 14
      "UPC not shown. Call 18005551234 now".toList = some "18005551234".toList := by decide
example : searchBareDigits 8 14 "ab 123 0123456789012345 x".toList
      = some "01234567890123".toList := by decide

/-! ## The model-number regexes

`re.search(r'Model[:\s]*([A-Z0-9]+/[A-Z0-9]+)(?:\s|SKU)', page_text, re.IGNORECASE)`
and its fallback `r'Model[:\s]*([A-Z0-9]+)'`.  In the slash form, the
trailing `(?:\s|SKU)` forces backtracking inside the second alphanumeric
run: the group keeps the longest prefix of the maximal run whose
remainder starts with whitespace or (case-insensitively) `SKU`. -/

/-- Does the remainder satisfy `(?:\s|SKU)`? -/
def modelTailOk (l : List Char) : Bool :=
  (match l with | c :: _ => pyIsSpace c | [] => false) || startsWithCI l ("sku".toList)

/-- Longest split length `1 ≤ n ≤ fuel` of the run inside `r2` whose
remainder satisfies `modelTailOk` (greedy backtracking). -/
def greedySplit (r2 : List Char) : Nat → Option Nat
  | 0 => none
  | Nat.succ n => if modelTailOk (r2.drop (n + 1)) then some (n + 1) else greedySplit r2 n

/-- Position matcher for the slash-form model regex. -/
def modelSlashAt (l : List Char) : Option (List Char) :=
  if startsWithCI l ("model".toList) then
    let r1 := (l.drop 5).dropWhile isLabelSep
    let run1 := r1.takeWhile isAlnumCI
    if run1.isEmpty then none
    else
      match r1.drop run1.length with
      | '/' :: r2 =>
          let run2 := r2.takeWhile isAlnumCI
          match greedySplit r2 run2.length with
          | some n => some (run1 ++ '/' :: r2.take n)
          | none => none
      | _ => none
  else none

/-- Position matcher for the fallback model regex (no slash). -/
def modelPlainAt (l : List Char) : Option (List Char) :=
  if startsWithCI l ("model".toList) then
    let r1 := (l.drop 5).dropWhile isLabelSep
    let run1 := r1.takeWhile isAlnumCI
    if run1.isEmpty then none else some run1
  else none

/-- Lines 186–193 of `n8n_main_scraper.py`: the slash-form search over the
whole document text, then the plain fallback. -/
def modelFromText (t : List Char) : Option (List Char) :=
  scanFirst modelSlashAt t <|> scanFirst modelPlainAt t

example : modelFromText "box Model: QN55Q60 SKU: 999".toList = some "QN55Q60".toList := by
  decide
example : modelFromText "Model: AB12/CD34 x".toList = some "AB12/CD34".toList := by decide
example :  -- greedy: SKU letters are alphanumeric, the following space closes the match
    modelFromText "Model: AB/CDSKU rest".toList = some "AB/CDSKU".toList := by decide
example :  -- backtracking: no whitespace after the run, SKU closes it
    modelFromText "Model: AB/CDSKU:".toList = some "AB/CD".toList := by decide
example : modelFromText "Model: WDGT5000 in box".toList = some "WDGT5000".toList := by decide
example :  -- an unrelated ambient mention of "model" matches the fallback
    modelFromText "remodeling ideas".toList = some "ing".toList := by decide
example : modelFromText "no label here".toList = none := by decide

/-! ## The document tree

The HTML-to-tree parsing collaborator (BeautifulSoup) is out of the
repository's scope; its output is modelled as this tree.  `find_all`
searches descendants in document order; a `class_` predicate function is
matched against each individual CSS class of the tag (tags without a
class never satisfy the source's predicates, which all test a non-empty
substring against `(x or '')`). -/

inductive HNode where
  | text (s : String)
  | elem (tag : String) (classes : List String) (attrs : List (String × String)) (children : List HNode)
deriving Repr

/-- Predicate on an element's tag, classes and attributes. -/
def ElemPred : Type := String → List String → List (String × String) → Bool

mutual

/-- `get_text()` of a node: concatenation of all descendant strings. -/
def nodeTextL : HNode → List Char
  | .text s => s.toList
  | .elem _ _ _ cs => forestTextL cs

def forestTextL : List HNode → List Char
  | [] => []
  | n :: ns => nodeTextL n ++ forestTextL ns

end

mutual

/-- `get_text(strip=True)`: each string stripped, then concatenated. -/
def nodeStripTextL : HNode → List Char
  | .text s => pyStrip s.toList
  | .elem _ _ _ cs => forestStripTextL cs

def forestStripTextL : List HNode → List Char
  | [] => []
  | n :: ns => nodeStripTextL n ++ forestStripTextL ns

end

mutual

/-- All elements of the forest satisfying `p`, in document (preorder) order. -/
def forestFindAll (p : ElemPred) : List HNode → List HNode
  | [] => []
  | n :: ns => nodeHits p n ++ forestFindAll p ns

def nodeHits (p : ElemPred) : HNode → List HNode
  | .text _ => []
  | .elem tg cl ats cs =>
      (if p tg cl ats then [HNode.elem tg cl ats cs] else []) ++ forestFindAll p cs

end

/-- `node.find_all(pred)`: matching descendants of `n` (excluding `n` itself). -/
def nodeFindAll (p : ElemPred) : HNode → List HNode
  | .text _ => []
  | .elem _ _ _ cs => forestFindAll p cs

/-- `node.find(pred)`. -/
def nodeFind (p : ElemPred) (n : HNode) : Option HNode :=
  (nodeFindAll p n).head?

/-- `tag.get(name)` attribute lookup. -/
def attrOf (n : HNode) (k : String) : Option String :=
  match n with
  | .elem _ _ ats _ => (ats.find? (fun kv => kv.1 == k)).map (·.2)
  | .text _ => none

def tagOf : HNode → String
  | .elem tg _ _ _ => tg
  | .text _ => ""

example :
    nodeFindAll (fun tg _ _ => tg == "b")
      (.elem "r" [] [] [.elem "b" ["x"] [] [], .elem "d" [] [] [.elem "b" ["y"] [] []]])
      = [.elem "b" ["x"] [] [], .elem "b" ["y"] [] []] := rfl

/-! ## Field extractors (`n8n_main_scraper.py`) -/

/-- `img` elements whose class marks them product images
(`soup.find_all('img', class_=lambda x: x and 'product' in (x or '').lower())`). -/
def productImgPred : ElemPred := fun tg cl _ =>
  tg == "img" && cl.any (fun c => containsL (lowerL c.toList) ("product".toList))

/-- `img.get('src') or img.get('data-src')` with Python falsiness. -/
def imgSrcRaw (n : HNode) : Option String :=
  match attrOf n "src" with
  | some s => if s == "" then attrOf n "data-src" else some s
  | none => attrOf n "data-src"

/-- The image-collection loop of `_extract_images`:
`if src and 'bestbuy' in src and src not in images: images.append(src)`. -/
def imgLoop (acc : List String) : List HNode → List String
  | [] => acc
  | img :: rest =>
      match imgSrcRaw img with
      | some s =>
          if (s != "" && containsS s "bestbuy") && !(acc.contains s) then
            imgLoop (acc ++ [s]) rest
          else imgLoop acc rest
      | none => imgLoop acc rest

/-- `_extract_images` (lines 339–351). -/
def _extract_images (tree : HNode) : List String :=
  imgLoop [] ((nodeFindAll productImgPred tree).take 10)

/-- `_extract_categories` (lines 354–367): anchors of the breadcrumb nav,
stripped text, non-empty, first occurrence kept. -/
def catLoop (acc : List String) : List HNode → List String
  | [] => acc
  | a :: rest =>
      let t := strOf (nodeStripTextL a)
      if t != "" && !(acc.contains t) then catLoop (acc ++ [t]) rest
      else catLoop acc rest

def _extract_categories (tree : HNode) : List String :=
  match nodeFind (fun tg cl _ =>
      tg == "nav" && cl.any (fun c => containsL (lowerL c.toList) ("breadcrumb".toList))) tree with
  | some nav => catLoop [] (nodeFindAll (fun tg _ _ => tg == "a") nav)
  | none => []

/-- A specifications entry: a real key/value pair or the placeholder note. -/
inductive SpecEntry where
  | pair (key value : String)
  | note (msg : String)
deriving DecidableEq, Repr

def SpecEntry.isPair : SpecEntry → Bool
  | .pair _ _ => true
  | .note _ => false

/-- One row of the specifications container: first two `td`/`div` cells,
kept only when both stripped texts are non-empty. -/
def rowPair (row : HNode) : Option SpecEntry :=
  match nodeFindAll (fun tg _ _ => tg == "td" || tg == "div") row with
  | c0 :: c1 :: _ =>
      let k := strOf (nodeStripTextL c0)
      let v := strOf (nodeStripTextL c1)
      if k != "" && v != "" then some (.pair k v) else none
  | _ => none

/-- `_extract_specifications` (lines 370–391). -/
def _extract_specifications (tree : HNode) : List SpecEntry :=
  let specsList :=
    match nodeFind (fun tg cl _ =>
        tg == "div" && cl.any (fun c => containsL (lowerL c.toList) ("specification".toList))) tree with
    | some sec =>
        ((nodeFindAll (fun tg cl _ =>
            (tg == "tr" || tg == "div")
              && cl.any (fun c => containsL (lowerL c.toList) ("row".toList))) sec).take 5).filterMap
          rowPair
    | none => []
  if specsList.isEmpty then [.note "No specifications found"] else specsList

/-- Lines 195–201: availability from substring search of the lowered
document text; the `in stock` branch is tested first. -/
def availabilityOf (t : List Char) : Option (Bool × String) :=
  if containsL (lowerL t) ("in stock".toList) then some (true, "In Stock")
  else if containsL (lowerL t) ("out of stock".toList) then some (false, "Out of Stock")
  else none

/-- Lines 237–244: SKU from the URL string.  `split('/')`, last chunk,
must be non-empty, not start with `?`; the part before `?` must be
longer than 3 characters. -/
def skuOf (url : String) : Option String :=
  let parts := splitOnChar '/' url.toList
  match parts.getLast? with
  | some lastPart =>
      if lastPart.isEmpty then none
      else if startsWithL lastPart ['?'] then none
      else
        let cand := lastPart.takeWhile (fun c => c ≠ '?')
        if 3 < cand.length then some (strOf cand) else none
  | none => none

example : skuOf "https://www.bestbuy.com/product/apple-iphone/J123456" = some "J123456" := by
  decide
example : skuOf "https://www.bestbuy.com/product/widget-123/" = none := by decide
example : skuOf "https://www.bestbuy.com/product/abc?x=1" = none := by decide
example : skuOf "https://www.bestbuy.com/product/abcd?x=1" = some "abcd" := by decide

/-! ## UPC extraction

A live Selenium element, as seen by the XPath queries of the source:
its raw `class` and `role` attribute strings and its rendered text. -/

structure LiveElem where
  cls : String
  role : String
  txt : String
deriving DecidableEq, Repr

/-- The `patterns` ladder of `_extract_upc` (lines 280–292), applied with
the per-candidate acceptance check `8 <= len <= 14`:
`UPC`, `GTIN|EAN`, `Universal Product Code` (each `[\s:]*` then 8–14
digits), then `UPC[^0-9]*` with 11–14 digits. -/
def upcPatterns (t : List Char) : Option (List Char) :=
  lenGuard 8 14 (searchLabeledDigits ["upc".toList] isLabelSep 8 14 t) <|>
  lenGuard 8 14 (searchLabeledDigits ["gtin".toList, "ean".toList] isLabelSep 8 14 t) <|>
  lenGuard 8 14 (searchLabeledDigits ["universal product code".toList] isLabelSep 8 14 t) <|>
  lenGuard 8 14 (searchLabeledDigits ["upc".toList] (fun c => !c.isDigit) 11 14 t)

/-- First element text (in order) on which `f` produces a candidate. -/
def firstSomeText (f : List Char → Option (List Char)) : List String → Option (List Char)
  | [] => none
  | t :: ts => f t.toList <|> firstSomeText f ts

/-- Lines 206–228: the live-panel strategy run when the panel was
disclosed.  Elements whose (lowercased) text mentions `upc` or
`universal product code`; per element the labeled
`(?:UPC|Universal Product Code)[\s:]*([0-9]{8,14})` pattern (accepted
when the length is at least 8), then the bare `([0-9]{8,14})` pattern
(accepted when the length is within 8–14). -/
def modalElemUpc (t : List Char) : Option (List Char) :=
  lenGuardLo 8
      (searchLabeledDigits ["upc".toList, "universal product code".toList] isLabelSep 8 14 t) <|>
  lenGuard 8 14 (searchBareDigits 8 14 t)

def upcFromLivePanel (live : List LiveElem) : Option (List Char) :=
  firstSomeText modalElemUpc
    ((live.filter (fun e =>
        containsL (lowerL e.txt.toList) ("upc".toList)
          || containsL (lowerL e.txt.toList) ("universal product code".toList))).map (·.txt))

/-- Lines 294–310: modal/dialog live elements (matched by `class`/`role`
attribute substrings, case-sensitively), each tried against the
`patterns` ladder. -/
def upcModalByClass (live : List LiveElem) : Option (List Char) :=
  firstSomeText upcPatterns
    ((live.filter (fun e =>
        containsL e.cls.toList ("modal".toList)
          || containsL e.cls.toList ("dialog".toList)
          || containsL e.role.toList ("dialog".toList))).map (·.txt))

/-- Lines 312–322: `table`/`div`/`section` elements whose class suggests a
specification or detail block; `UPC[^0-9]*([0-9]{8,14})` on each text. -/
def upcSpecSections (tree : HNode) : Option (List Char) :=
  firstSomeText (fun t => lenGuard 8 14 (searchLabeledDigits ["upc".toList] (fun c => !c.isDigit) 8 14 t))
    ((nodeFindAll (fun tg cl _ =>
        (tg == "table" || tg == "div" || tg == "section")
          && cl.any (fun c =>
              containsL (lowerL c.toList) ("spec".toList)
                || containsL (lowerL c.toList) ("detail".toList))) tree).map
      (fun n => strOf (nodeTextL n)))

/-- Lines 324–334: line-proximity fallback.  For each line mentioning
`upc` (or the spelled-out label), search that line joined with the next
two for an 11–14 digit run. -/
def upcLinesLoop : List (List Char) → Option (List Char)
  | [] => none
  | ln :: rest =>
      if containsL (lowerL ln) ("upc".toList)
          || containsL (lowerL ln) ("universal product code".toList) then
        match lenGuard 11 14 (searchBareDigits 11 14 (joinSpace (ln :: rest.take 2))) with
        | some u => some u
        | none => upcLinesLoop rest
      else upcLinesLoop rest

def upcLines (t : List Char) : Option (List Char) :=
  upcLinesLoop (splitOnChar '\n' t)

/-- `_extract_upc` (lines 276–336): whole-document patterns, then (when a
live handle is passed) modal/dialog elements, then specification/detail
sections, then the line-proximity fallback. -/
def _extract_upc (tree : HNode) (pageText : List Char) (live : Option (List LiveElem)) :
    Option (List Char) :=
  upcPatterns pageText <|>
  (match live with | some lv => upcModalByClass lv | none => none) <|>
  upcSpecSections tree <|>
  upcLines pageText

/-! ## Disclosure activator (lines 99–150)

The live-interaction outcomes are data: for each XPath locator strategy,
whether `find_elements` raises, and for each matched element whether the
scroll, the direct click, the script-injected click raise, and whether
the bounded wait observes a modal/UPC signal.  The loop body sets
`modal_opened = True` on BOTH branches of the wait (observed, or timeout
followed by the unconditional settle delay), so the wait outcome never
affects the result; a scroll failure or both clicks failing moves on to
the next candidate. -/

structure ElemBehavior where
  scrollRaises : Bool
  clickRaises : Bool
  scriptClickRaises : Bool
  waitObserved : Bool
deriving DecidableEq, Repr

structure StratBehavior where
  findRaises : Bool
  elems : List ElemBehavior
deriving DecidableEq, Repr

/-- The element body succeeds (reaches the wait and the `break`) iff the
scroll does not raise and one of the two click paths does not raise.
`waitObserved` is deliberately not consulted: both wait branches set
`modal_opened = True`. -/
def elemClickSucceeds (e : ElemBehavior) : Bool :=
  !e.scrollRaises && (!e.clickRaises || !e.scriptClickRaises)

def elemLoop : List ElemBehavior → Bool
  | [] => false
  | e :: rest => if elemClickSucceeds e then true else elemLoop rest

def discloseSpecs : List StratBehavior → Bool
  | [] => false
  | s :: rest => if !s.findRaises && elemLoop s.elems then true else discloseSpecs rest

/-! ## The result dictionary

The Python result is a `dict` built once with all documented keys and
then only re-assigned at existing keys (a CPython dict keeps the key's
position on re-assignment), so it is modelled as an association list
with in-place update. -/

inductive FieldVal where
  | s (v : String)
  | b (v : Bool)
  | ls (v : List String)
  | specs (v : List SpecEntry)
  /-- A non-string `product_url` echoed into the `url` field. -/
  | obj
deriving DecidableEq, Repr

abbrev PyDict := List (String × FieldVal)

/-- `result[k] = v` at an existing key. -/
def dset (d : PyDict) (k : String) (v : FieldVal) : PyDict :=
  d.map (fun kv => if kv.1 == k then (k, v) else kv)

def dget (d : PyDict) (k : String) : Option FieldVal :=
  (d.find? (fun kv => kv.1 == k)).map (·.2)

def dkeys (d : PyDict) : List String := d.map (·.1)

/-- Conditional update: the source's `if found: result[k] = v` pattern. -/
def dupd (d : PyDict) (k : String) (o : Option FieldVal) : PyDict :=
  match o with
  | some v => dset d k v
  | none => d

def dgetS (d : PyDict) (k : String) : String :=
  match dget d k with
  | some (.s v) => v
  | _ => ""

/-- Lines 41–58: the initial result record with every sentinel default. -/
def initProductResult (u : FieldVal) : PyDict :=
  [("status", .s "success"), ("message", .s ""), ("url", u),
   ("name", .s "Not found"), ("price", .s "Not available"), ("rating", .s "No rating"),
   ("review_count", .s "0"), ("sku", .s "N/A"), ("upc", .s "Not available"),
   ("model", .s "Not found"), ("availability", .s "Availability unknown"),
   ("in_stock", .b false), ("description", .s ""), ("categories", .ls []),
   ("images", .ls []), ("specifications", .specs [])]

/-! ## The extraction orchestrator -/

/-- What the browser collaborator produced: an exception escaping the
`try` block before any page field was assigned (navigation, waiting,
scrolling and parsing are the only operations that can raise there; all
field extraction below the snapshot is exception-guarded), or a rendered
page: the disclosure interaction outcomes, the parsed snapshot tree and
the live elements the XPath queries see. -/
structure Snapshot where
  tree : HNode
  live : List LiveElem

inductive Session where
  | exn (msg : String)
  | ok (disc : List StratBehavior) (snap : Snapshot)

/-- A Python argument: a string, or any non-string object. -/
inductive PyInput where
  | str (s : String)
  | nonstr

structure RunOut where
  result : PyDict
  /-- Whether the run created/touched the webdriver collaborator. -/
  usedBrowser : Bool

/-- Line 66: the URL validation — plain substring containment. -/
def productUrlOkStr (s : String) : Bool :=
  containsS s "bestbuy.com" && containsS s "/product/"

/-- First matching element's non-empty stripped text
(`elem = soup.find(...)`; `if elem: t = elem.get_text(strip=True); if t: ...`). -/
def classTextField (p : ElemPred) (tree : HNode) : Option FieldVal :=
  (nodeFind p tree).bind fun e =>
    let s := strOf (nodeStripTextL e)
    if s == "" then none else some (.s s)

/-- The UPC strategy chain of the orchestrator (lines 203–235): the
live-panel lookup when the panel was disclosed, else/then `_extract_upc`
with the live handle passed only in that case. -/
def upcChain (opened : Bool) (snap : Snapshot) : Option (List Char) :=
  (if opened then upcFromLivePanel snap.live else none) <|>
  _extract_upc snap.tree (nodeTextL snap.tree) (if opened then some snap.live else none)

/-- Lines 160–263: everything after the snapshot is taken. -/
def extractPhase (url : String) (opened : Bool) (snap : Snapshot) : PyDict :=
  let t := snap.tree
  let pageText := nodeTextL t
  let d := initProductResult (.s url)
  let d := dupd d "name"
      ((nodeFind (fun tg _ _ => tg == "h1") t).map (fun e => .s (strOf (nodeStripTextL e))))
  let d := dupd d "price"
      (classTextField (fun tg cl _ =>
        tg == "div" && cl.any (fun c => containsL c.toList ("priceView".toList))) t)
  let d := dupd d "rating"
      (classTextField (fun tg cl _ =>
        tg == "div" && cl.any (fun c => containsL (lowerL c.toList) ("rating".toList))) t)
  let d := dupd d "review_count"
      (classTextField (fun tg cl _ =>
        tg == "span" && cl.any (fun c => containsL (lowerL c.toList) ("reviews".toList))) t)
  let d := dupd d "model" ((modelFromText pageText).map (fun g => .s (strOf (pyStrip g))))
  let av := availabilityOf pageText
  let d := dupd d "in_stock" (av.map (fun p => .b p.1))
  let d := dupd d "availability" (av.map (fun p => .s p.2))
  let d := dupd d "upc" ((upcChain opened snap).map (fun u => .s (strOf u)))
  let d := dupd d "sku" ((skuOf url).map .s)
  let d := dset d "images" (.ls (_extract_images t))
  let d := dset d "categories" (.ls (_extract_categories t))
  let d := dset d "specifications" (.specs (_extract_specifications t))
  let d := dupd d "description"
      ((nodeFind (fun tg cl _ =>
          tg == "div" && cl.any (fun c => containsL (lowerL c.toList) ("description".toList))) t).map
        (fun e => .s (strOf ((nodeStripTextL e).take 200))))
  dset d "message" (.s ("Successfully scraped: " ++ dgetS d "name"))

/-- `scrape_bestbuy_product` (lines 22–273). -/
def scrape_bestbuy_product (input : PyInput) (session : Session) : RunOut :=
  match input with
  | .nonstr =>
      { result := dset (dset (initProductResult .obj) "status" (.s "error"))
          "message" (.s "product_url must be a string"),
        usedBrowser := false }
  | .str url =>
      if productUrlOkStr url then
        match session with
        | .exn m =>
            { result := dset (dset (initProductResult (.s url)) "status" (.s "error"))
                "message" (.s ("Scraping failed: " ++ m)),
              usedBrowser := true }
        | .ok disc snap =>
            { result := extractPhase url (discloseSpecs disc) snap, usedBrowser := true }
      else
        { result := dset (dset (initProductResult (.s url)) "status" (.s "error"))
            "message" (.s "Invalid Best Buy product URL"),
          usedBrowser := false }

/-! ## The list scraper (`n8n_list_scraper.py`) -/

mutual

/-- Like `forestFindAll`, but each hit carries its ancestor chain
(nearest ancestor first) for the `.parent` walk of the image lookup. -/
def forestFindAnc (p : ElemPred) (anc : List HNode) : List HNode → List (HNode × List HNode)
  | [] => []
  | n :: ns => nodeAncHits p anc n ++ forestFindAnc p anc ns

def nodeAncHits (p : ElemPred) (anc : List HNode) : HNode → List (HNode × List HNode)
  | .text _ => []
  | .elem tg cl ats cs =>
      (if p tg cl ats then [(HNode.elem tg cl ats cs, anc)] else [])
        ++ forestFindAnc p (HNode.elem tg cl ats cs :: anc) cs

end

/-- Descendant search from the document root; the root itself (BeautifulSoup's
`[document]` object) is the outermost ancestor, as in the source's
`while parent and parent.name != 'body'` walk. -/
def docFindAnc (p : ElemPred) (root : HNode) : List (HNode × List HNode) :=
  match root with
  | .text _ => []
  | .elem tg cl ats cs => forestFindAnc p [HNode.elem tg cl ats cs] cs

/-- `a` elements whose `href` mentions `/product/`
(`soup.find_all('a', href=lambda x: x and '/product/' in x)`). -/
def productAnchorPred : ElemPred := fun tg _ ats =>
  tg == "a" &&
    (match (ats.find? (fun kv => kv.1 == "href")).map (·.2) with
      | some h => containsS h "/product/"
      | none => false)

/-- Lines 102–111: direct product anchors; if none, the first `sku-item`
container's first product anchor. -/
def listProductLinks (root : HNode) : List (HNode × List HNode) :=
  let direct := docFindAnc productAnchorPred root
  if direct.isEmpty then
    match (docFindAnc (fun tg cl _ =>
        tg == "div" && cl.any (fun c => containsL (lowerL c.toList) ("sku-item".toList))) root).head? with
    | some (container, canc) =>
        match container with
        | .elem _ _ _ cs =>
            match (forestFindAnc productAnchorPred (container :: canc) cs).head? with
            | some la => [la]
            | none => []
        | .text _ => []
    | none => []
  else direct

/-- Lines 140–148: `link.find('img')`, else walk `.parent` up to (but
excluding) `body`, searching each ancestor's descendants for an `img`. -/
def ancImgWalk : List HNode → Option HNode
  | [] => none
  | p :: rest =>
      if tagOf p == "body" then none
      else
        match nodeFind (fun tg _ _ => tg == "img") p with
        | some im => some im
        | none => ancImgWalk rest

/-- Lines 130–136: SKU from the link URL (no length check here, unlike
the main scraper). -/
def listSkuOf (href : String) : String :=
  let parts := splitOnChar '/' href.toList
  match parts.getLast? with
  | some lastPart =>
      if lastPart.isEmpty then "Not found"
      else if startsWithL lastPart ['?'] then "Not found"
      else strOf (lastPart.takeWhile (fun c => c ≠ '?'))
  | none => "Not found"

/-- Lines 36–44. -/
def initListResult : PyDict :=
  [("status", .s "success"), ("message", .s ""), ("name", .s "Not found"),
   ("link", .s "Not found"), ("full_url", .s "Not found"), ("image", .s "Not found"),
   ("sku", .s "Not found")]

/-- Line 52: the search-URL validation. -/
def searchUrlOkStr (s : String) : Bool :=
  containsS s "bestbuy.com" && (containsS s "searchpage" || containsS s "/site/")

/-- Lines 101–166: extraction of the first product from the parsed page. -/
def listExtract (root : HNode) : PyDict :=
  let d := initListResult
  match (listProductLinks root).head? with
  | none =>
      dset (dset d "status" (.s "error")) "message" (.s "No products found on page")
  | some (link, anc) =>
      let href := (attrOf link "href").getD ""
      if href == "" then d
      else
        let nameT := strOf (nodeStripTextL link)
        let nameT := if nameT == "" then (attrOf link "title").getD "" else nameT
        let fullUrl :=
          if startsWithL href.toList ("http".toList) then href
          else "https://www.bestbuy.com" ++ href
        let img :=
          match nodeFind (fun tg _ _ => tg == "img") link with
          | some im => some im
          | none => ancImgWalk anc
        let imageUrl :=
          match img with
          | some im => match imgSrcRaw im with
            | some src => if src == "" then "Not found" else src
            | none => "Not found"
          | none => "Not found"
        let nameV := if nameT == "" then "Not found" else nameT
        let d := dset d "name" (.s nameV)
        let d := dset d "link" (.s href)
        let d := dset d "full_url" (.s fullUrl)
        let d := dset d "image" (.s imageUrl)
        let d := dset d "sku" (.s (listSkuOf href))
        dset d "message" (.s ("Found product: " ++ nameV))

inductive ListSession where
  | exn (msg : String)
  | ok (root : HNode)

/-- `scrape_bestbuy_first_product` (lines 21–176). -/
def scrape_bestbuy_first_product (input : PyInput) (session : ListSession) : RunOut :=
  match input with
  | .nonstr =>
      { result := dset (dset initListResult "status" (.s "error"))
          "message" (.s "search_url must be a string"),
        usedBrowser := false }
  | .str url =>
      if searchUrlOkStr url then
        match session with
        | .exn m =>
            { result := dset (dset initListResult "status" (.s "error"))
                "message" (.s ("Scraping failed: " ++ m)),
              usedBrowser := true }
        | .ok root => { result := listExtract root, usedBrowser := true }
      else
        { result := dset (dset initListResult "status" (.s "error"))
            "message" (.s "Invalid Best Buy search/list URL"),
          usedBrowser := false }

/-! ## Claim-language (spec-side) definitions

These definitions follow the wording of the specification sentences
under scrutiny (not the source), for refinement comparisons. -/

/-- Spec wording for C3: "the URL's last non-empty path segment with any
query string stripped". -/
def claimSku (url : String) : Option String :=
  let noQuery := url.toList.takeWhile (fun c => c ≠ '?')
  ((splitOnChar '/' noQuery).filter (fun seg => !seg.isEmpty)).getLast?.map strOf

/-- Spec wording for C6: case-insensitive substring search where the
first match in document order wins. -/
def claimAvailabilityFirstMatch (t : List Char) : Option (Bool × String) :=
  match firstIdxOf (lowerL t) ("in stock".toList), firstIdxOf (lowerL t) ("out of stock".toList) with
  | some i, some j => if i ≤ j then some (true, "In Stock") else some (false, "Out of Stock")
  | some _, none => some (true, "In Stock")
  | none, some _ => some (false, "Out of Stock")
  | none, none => none

/-- Spec wording for C4: the host component of a URL (the part after any
`://`, up to the first `/`, `?`, `#` or `:`). -/
def claimUrlHost (u : String) : String :=
  let rec afterScheme : List Char → Option (List Char)
    | [] => none
    | c :: cs => if startsWithL (c :: cs) ("://".toList) then some (cs.drop 2)
                 else afterScheme cs
  let rest := (afterScheme u.toList).getD u.toList
  strOf (rest.takeWhile (fun c => c ≠ '/' && c ≠ '?' && c ≠ '#' && c ≠ ':'))

/-- Spec wording for C4, read as generously as possible: the entry's
host component references the retailer at all. -/
def claimHostReferencesRetailer (u : String) : Bool :=
  containsL (claimUrlHost u).toList ("bestbuy".toList)

example : claimUrlHost "https://evil.example/bestbuy.jpg" = "evil.example" := by decide
example : claimHostReferencesRetailer "https://pisces.bestbuy.com/image.jpg" = true := by decide

/-- Spec wording for C4: "in document order, keep first occurrence of
each distinct source URL" — first-occurrence de-duplication. -/
def dfAux (seen : List String) : List String → List String
  | [] => []
  | x :: xs => if x ∈ seen then dfAux seen xs else x :: dfAux (x :: seen) xs

def dedupFirst (l : List String) : List String := dfAux [] l

/-- The candidate list C4's wording describes: the sources of the first
ten product images that are present, non-empty and mention the retailer. -/
def imageCandidates (tree : HNode) : List String :=
  ((nodeFindAll productImgPred tree).take 10).filterMap fun im =>
    match imgSrcRaw im with
    | some s => if s != "" && containsS s "bestbuy" then some s else none
    | none => none

/-- Candidates are all digits, within the regex's length window. -/
def upcOk (lo hi : Nat) (u : List Char) : Prop :=
  u.all Char.isDigit = true ∧ lo ≤ u.length ∧ u.length ≤ hi

/-- Strategies 1–3 of the claim's grouping, in the source's order: the
live-panel lookup, the whole-document patterns, the modal/dialog
elements, the specification/detail sections. -/
def upcStrats123 (opened : Bool) (snap : Snapshot) : Option (List Char) :=
  (if opened then upcFromLivePanel snap.live else none) <|>
  upcPatterns (nodeTextL snap.tree) <|>
  (if opened then upcModalByClass snap.live else none) <|>
  upcSpecSections snap.tree

def productResultKeys : List String :=
  ["status", "message", "url", "name", "price", "rating", "review_count", "sku",
   "upc", "model", "availability", "in_stock", "description", "categories",
   "images", "specifications"]

def listResultKeys : List String :=
  ["status", "message", "name", "link", "full_url", "image", "sku"]

/-! ## Validity predicates of the two entry points -/

def productInputValid : PyInput → Bool
  | .str s => productUrlOkStr s
  | .nonstr => false

def searchInputValid : PyInput → Bool
  | .str s => searchUrlOkStr s
  | .nonstr => false

def invalidProductMsg : PyInput → String
  | .str _ => "Invalid Best Buy product URL"
  | .nonstr => "product_url must be a string"

def invalidSearchMsg : PyInput → String
  | .str _ => "Invalid Best Buy search/list URL"
  | .nonstr => "search_url must be a string"

/-! ## Helper lemmas: dictionaries -/

theorem dkeys_dset (d : PyDict) (k : String) (v : FieldVal) :
    dkeys (dset d k v) = dkeys d := by
  induction d with
  | nil => rfl
  | cons kv rest ih =>
      by_cases h : kv.1 = k
      · simp [dset, dkeys, h, beq_iff_eq] at *
        exact ih
      · simp [dset, dkeys, h, beq_iff_eq] at *
        exact ih

theorem dkeys_dupd (d : PyDict) (k : String) (o : Option FieldVal) :
    dkeys (dupd d k o) = dkeys d := by
  cases o with
  | none => rfl
  | some v => exact dkeys_dset d k v

theorem dget_cons (kv : String × FieldVal) (l : PyDict) (k : String) :
    dget (kv :: l) k = if kv.1 == k then some kv.2 else dget l k := by
  by_cases h : (kv.1 == k) = true <;> simp [dget, List.find?_cons, h]

theorem dget_dset_ne (d : PyDict) {k k' : String} (v : FieldVal) (h : ¬ k' = k) :
    dget (dset d k v) k' = dget d k' := by
  induction d with
  | nil => rfl
  | cons kv rest ih =>
      simp only [dset, List.map_cons]
      by_cases hk : (kv.1 == k) = true
      · have hkk' : ¬ ((k == k') = true) := by
          simp only [beq_iff_eq]
          exact fun e => h e.symm
        have hkv : ¬ ((kv.1 == k') = true) := by
          have he : kv.1 = k := by simpa [beq_iff_eq] using hk
          simp only [he, beq_iff_eq]
          exact fun e => h e.symm
        rw [if_pos hk, dget_cons, dget_cons, if_neg hkk', if_neg hkv]
        exact ih
      · rw [if_neg hk, dget_cons, dget_cons]
        by_cases h2 : (kv.1 == k') = true
        · rw [if_pos h2, if_pos h2]
        · rw [if_neg h2, if_neg h2]
          exact ih

theorem dget_dupd_ne (d : PyDict) {k k' : String} (o : Option FieldVal) (h : ¬ k' = k) :
    dget (dupd d k o) k' = dget d k' := by
  cases o with
  | none => rfl
  | some v => exact dget_dset_ne d v h

theorem dget_dset_self (d : PyDict) {k : String} {w : FieldVal} (v : FieldVal)
    (hw : dget d k = some w) : dget (dset d k v) k = some v := by
  induction d with
  | nil => simp [dget] at hw
  | cons kv rest ih =>
      simp only [dset, List.map_cons]
      by_cases hk : (kv.1 == k) = true
      · rw [if_pos hk, dget_cons]
        simp
      · rw [if_neg hk, dget_cons, if_neg hk]
        rw [dget_cons, if_neg hk] at hw
        exact ih hw

theorem dget_dupd_self (d : PyDict) {k : String} {w : FieldVal} (o : Option FieldVal)
    (hw : dget d k = some w) : dget (dupd d k o) k = some (o.getD w) := by
  cases o with
  | none => simpa using hw
  | some v => simpa using dget_dset_self d v hw

/-! ## Helper lemmas: options -/

theorem orElse_eq_some_iff {α : Type} (o p : Option α) (u : α) :
    (o <|> p) = some u ↔ o = some u ∨ (o = none ∧ p = some u) := by
  cases o <;> simp

theorem orElse_assoc {α : Type} (a b c : Option α) :
    ((a <|> b) <|> c) = (a <|> (b <|> c)) := by
  cases a <;> simp

/-! ## Helper lemmas: first-occurrence de-duplication -/

theorem dfAux_sublist (seen : List String) (l : List String) : List.Sublist (dfAux seen l) l := by
  induction l generalizing seen with
  | nil => simp [dfAux]
  | cons x xs ih =>
      simp only [dfAux]
      by_cases h : x ∈ seen
      · rw [if_pos h]
        exact (ih seen).cons x
      · rw [if_neg h]
        exact (ih (x :: seen)).cons₂ x

theorem mem_dfAux {y : String} : ∀ {seen l : List String},
    y ∈ dfAux seen l ↔ y ∈ l ∧ y ∉ seen := by
  intro seen l
  induction l generalizing seen with
  | nil => simp [dfAux]
  | cons x xs ih =>
      simp only [dfAux]
      by_cases h : x ∈ seen
      · rw [if_pos h, ih]
        constructor
        · rintro ⟨hy, hn⟩
          exact ⟨List.mem_cons_of_mem _ hy, hn⟩
        · rintro ⟨hy, hn⟩
          rcases List.mem_cons.mp hy with rfl | hy'
          · exact absurd h hn
          · exact ⟨hy', hn⟩
      · rw [if_neg h]
        constructor
        · intro hy
          rcases List.mem_cons.mp hy with rfl | hy'
          · exact ⟨List.mem_cons_self _ _, h⟩
          · have hx := ih.mp hy'
            exact ⟨List.mem_cons_of_mem _ hx.1, fun hs => hx.2 (List.mem_cons_of_mem _ hs)⟩
        · rintro ⟨hy, hn⟩
          rcases List.mem_cons.mp hy with rfl | hy'
          · exact List.mem_cons_self _ _
          · by_cases hyx : y = x
            · subst hyx
              exact List.mem_cons_self _ _
            · exact List.mem_cons_of_mem _ (ih.mpr ⟨hy', by simp [List.mem_cons, hyx, hn]⟩)

theorem dfAux_nodup (seen : List String) (l : List String) : (dfAux seen l).Nodup := by
  induction l generalizing seen with
  | nil => simp [dfAux]
  | cons x xs ih =>
      simp only [dfAux]
      by_cases h : x ∈ seen
      · rw [if_pos h]
        exact ih seen
      · rw [if_neg h]
        refine List.nodup_cons.mpr ⟨fun hx => ?_, ih (x :: seen)⟩
        exact (mem_dfAux.mp hx).2 (List.mem_cons_self _ _)

/-! ## Helper lemmas: digit captures -/

theorem all_takeWhile (p : Char → Bool) (l : List Char) :
    (l.takeWhile p).all p = true := by
  induction l with
  | nil => rfl
  | cons c cs ih =>
      by_cases h : p c = true
      · simp [List.takeWhile_cons, h, ih]
      · simp [List.takeWhile_cons, h]

theorem all_of_sublist {p : Char → Bool} {l₁ l₂ : List Char} (hs : List.Sublist l₁ l₂)
    (h : l₂.all p = true) : l₁.all p = true := by
  rw [List.all_eq_true] at h ⊢
  exact fun c hc => h c (hs.subset hc)

theorem digit_not_space {c : Char} (h : c.isDigit = true) : pyIsSpace c = false := by
  by_contra hcon
  have hsp : pyIsSpace c = true := by
    revert hcon
    cases pyIsSpace c <;> simp
  unfold pyIsSpace at hsp
  simp only [Bool.or_eq_true, decide_eq_true_eq] at hsp
  rcases hsp with ((((h1 | h2) | h3) | h4) | h5) | h6 <;> subst_vars <;>
    exact absurd h (by decide)

theorem pyStrip_all_digits {l : List Char} (h : l.all Char.isDigit = true) :
    pyStrip l = l := by
  have hstep : ∀ (m : List Char), m.all Char.isDigit = true → m.dropWhile pyIsSpace = m := by
    intro m hm
    cases m with
    | nil => rfl
    | cons c cs =>
        have hc : Char.isDigit c = true := by
          simp only [List.all_cons, Bool.and_eq_true] at hm
          exact hm.1
        simp [List.dropWhile_cons, digit_not_space hc]
  unfold pyStrip
  rw [hstep l h, hstep l.reverse (by simpa using h), List.reverse_reverse]

theorem digitRunCapture_sound {lo hi : Nat} {l u : List Char} (hlohi : lo ≤ hi)
    (h : digitRunCapture lo hi l = some u) : upcOk lo hi u := by
  unfold digitRunCapture at h
  by_cases hc : lo ≤ (l.takeWhile Char.isDigit).length
  · rw [if_pos hc] at h
    have hu : u = (l.takeWhile Char.isDigit).take hi := (Option.some.inj h).symm
    subst hu
    refine ⟨all_of_sublist (List.take_sublist _ _) (all_takeWhile _ _), ?_, ?_⟩
    · rw [List.length_take]
      exact le_min hlohi hc
    · rw [List.length_take]
      exact min_le_left _ _
  · rw [if_neg hc] at h
    cases h

theorem scanFirst_sound {f : List Char → Option (List Char)} {t u : List Char}
    (h : scanFirst f t = some u) : ∃ s, f s = some u := by
  induction t with
  | nil => exact ⟨[], h⟩
  | cons c cs ih =>
      rw [scanFirst] at h
      rcases (orElse_eq_some_iff _ _ _).mp h with h1 | ⟨_, h2⟩
      · exact ⟨c :: cs, h1⟩
      · exact ih h2

theorem labeledDigitsAt_sound {labels : List (List Char)} {skip : Char → Bool}
    {lo hi : Nat} {l u : List Char} (hlohi : lo ≤ hi)
    (h : labeledDigitsAt labels skip lo hi l = some u) : upcOk lo hi u := by
  unfold labeledDigitsAt at h
  cases hl : labelAt labels l with
  | none => rw [hl] at h; cases h
  | some r =>
      rw [hl, Option.some_bind] at h
      exact digitRunCapture_sound hlohi h

theorem searchLabeledDigits_sound {labels : List (List Char)} {skip : Char → Bool}
    {lo hi : Nat} {t u : List Char} (hlohi : lo ≤ hi)
    (h : searchLabeledDigits labels skip lo hi t = some u) : upcOk lo hi u := by
  obtain ⟨s, hs⟩ := scanFirst_sound h
  exact labeledDigitsAt_sound hlohi hs

theorem searchBareDigits_sound {lo hi : Nat} {t u : List Char} (hlohi : lo ≤ hi)
    (h : searchBareDigits lo hi t = some u) : upcOk lo hi u := by
  obtain ⟨s, hs⟩ := scanFirst_sound h
  exact digitRunCapture_sound hlohi hs

theorem lenGuard_sound {lo hi : Nat} {o : Option (List Char)} {u : List Char}
    (hdig : ∀ g, o = some g → g.all Char.isDigit = true)
    (h : lenGuard lo hi o = some u) : upcOk lo hi u := by
  unfold lenGuard at h
  cases ho : o with
  | none => rw [ho] at h; cases h
  | some g =>
      rw [ho, Option.some_bind] at h
      have hg := hdig g ho
      rw [pyStrip_all_digits hg] at h
      by_cases hc : (lo ≤ g.length && g.length ≤ hi) = true
      · rw [if_pos hc] at h
        cases h
        simp only [Bool.and_eq_true, decide_eq_true_eq] at hc
        exact ⟨hg, hc.1, hc.2⟩
      · rw [if_neg hc] at h
        cases h

theorem lenGuardLo_sound {lo : Nat} {o : Option (List Char)} {u : List Char} {hi : Nat}
    (hdig : ∀ g, o = some g → upcOk lo hi g)
    (h : lenGuardLo lo o = some u) : upcOk lo hi u := by
  unfold lenGuardLo at h
  cases ho : o with
  | none => rw [ho] at h; cases h
  | some g =>
      have hg := hdig g ho
      rw [ho, Option.some_bind] at h
      simp only [pyStrip_all_digits hg.1] at h
      by_cases hc : lo ≤ g.length
      · simp only [if_pos hc] at h
        cases h
        exact hg
      · simp only [if_neg hc] at h
        cases h

theorem firstSomeText_sound {f : List Char → Option (List Char)} {ts : List String}
    {u : List Char} (h : firstSomeText f ts = some u) : ∃ t, f t = some u := by
  induction ts with
  | nil => cases h
  | cons t rest ih =>
      rw [firstSomeText] at h
      rcases (orElse_eq_some_iff _ _ _).mp h with h1 | ⟨_, h2⟩
      · exact ⟨t.toList, h1⟩
      · exact ih h2

/-! ## Helper lemmas: UPC strategy soundness -/

theorem upcPatterns_sound {t u : List Char} (h : upcPatterns t = some u) : upcOk 8 14 u := by
  unfold upcPatterns at h
  rcases (orElse_eq_some_iff _ _ _).mp h with h1 | ⟨_, h⟩
  · exact lenGuard_sound (fun g hg => (searchLabeledDigits_sound (by decide) hg).1) h1
  rcases (orElse_eq_some_iff _ _ _).mp h with h2 | ⟨_, h⟩
  · exact lenGuard_sound (fun g hg => (searchLabeledDigits_sound (by decide) hg).1) h2
  rcases (orElse_eq_some_iff _ _ _).mp h with h3 | ⟨_, h4⟩
  · exact lenGuard_sound (fun g hg => (searchLabeledDigits_sound (by decide) hg).1) h3
  · exact lenGuard_sound (fun g hg => (searchLabeledDigits_sound (by decide) hg).1) h4

theorem modalElemUpc_sound {t u : List Char} (h : modalElemUpc t = some u) : upcOk 8 14 u := by
  unfold modalElemUpc at h
  rcases (orElse_eq_some_iff _ _ _).mp h with h1 | ⟨_, h2⟩
  · exact lenGuardLo_sound (fun g hg => searchLabeledDigits_sound (by decide) hg) h1
  · exact lenGuard_sound (fun g hg => (searchBareDigits_sound (by decide) hg).1) h2

theorem upcFromLivePanel_sound {live : List LiveElem} {u : List Char}
    (h : upcFromLivePanel live = some u) : upcOk 8 14 u := by
  obtain ⟨t, ht⟩ := firstSomeText_sound h
  exact modalElemUpc_sound ht

theorem upcModalByClass_sound {live : List LiveElem} {u : List Char}
    (h : upcModalByClass live = some u) : upcOk 8 14 u := by
  obtain ⟨t, ht⟩ := firstSomeText_sound h
  exact upcPatterns_sound ht

theorem upcSpecSections_sound {tree : HNode} {u : List Char}
    (h : upcSpecSections tree = some u) : upcOk 8 14 u := by
  obtain ⟨t, ht⟩ := firstSomeText_sound h
  exact lenGuard_sound (fun g hg => (searchLabeledDigits_sound (by decide) hg).1) ht

theorem upcLinesLoop_sound {ls : List (List Char)} {u : List Char}
    (h : upcLinesLoop ls = some u) : upcOk 11 14 u := by
  induction ls with
  | nil => cases h
  | cons ln rest ih =>
      rw [upcLinesLoop] at h
      by_cases hc : (containsL (lowerL ln) ("upc".toList)
          || containsL (lowerL ln) ("universal product code".toList)) = true
      · rw [if_pos hc] at h
        cases hm : lenGuard 11 14 (searchBareDigits 11 14 (joinSpace (ln :: rest.take 2))) with
        | some v =>
            rw [hm] at h
            cases h
            exact lenGuard_sound (fun g hg => (searchBareDigits_sound (by decide) hg).1) hm
        | none =>
            rw [hm] at h
            exact ih h
      · rw [if_neg hc] at h
        exact ih h

theorem upcLines_sound {t u : List Char} (h : upcLines t = some u) : upcOk 11 14 u :=
  upcLinesLoop_sound h

theorem _extract_upc_sound {tree : HNode} {pt : List Char} {live : Option (List LiveElem)}
    {u : List Char} (h : _extract_upc tree pt live = some u) : upcOk 8 14 u := by
  unfold _extract_upc at h
  rcases (orElse_eq_some_iff _ _ _).mp h with h1 | ⟨_, h⟩
  · exact upcPatterns_sound h1
  rcases (orElse_eq_some_iff _ _ _).mp h with h2 | ⟨_, h⟩
  · cases live with
    | some lv => exact upcModalByClass_sound h2
    | none => cases h2
  rcases (orElse_eq_some_iff _ _ _).mp h with h3 | ⟨_, h4⟩
  · exact upcSpecSections_sound h3
  · have h5 := upcLines_sound h4
    exact ⟨h5.1, le_trans (by decide) h5.2.1, h5.2.2⟩

theorem upcChain_sound {opened : Bool} {snap : Snapshot} {u : List Char}
    (h : upcChain opened snap = some u) : upcOk 8 14 u := by
  unfold upcChain at h
  rcases (orElse_eq_some_iff _ _ _).mp h with h1 | ⟨_, h2⟩
  · cases opened with
    | true => exact upcFromLivePanel_sound h1
    | false => cases h1
  · exact _extract_upc_sound h2

theorem upcChain_split (opened : Bool) (snap : Snapshot) :
    upcChain opened snap = (upcStrats123 opened snap <|> upcLines (nodeTextL snap.tree)) := by
  unfold upcChain _extract_upc upcStrats123
  cases opened <;> simp [orElse_assoc]

theorem upcChain_from_lines {opened : Bool} {snap : Snapshot} {u : List Char}
    (h123 : upcStrats123 opened snap = none) (h : upcChain opened snap = some u) :
    upcOk 11 14 u := by
  rw [upcChain_split, h123] at h
  simp only [Option.none_orElse] at h
  exact upcLines_sound h

/-! ## Helper lemmas: reading fields of the finished record -/

theorem dkeys_initProductResult (u : FieldVal) :
    dkeys (initProductResult u) = productResultKeys := rfl

theorem dkeys_extractPhase (url : String) (opened : Bool) (snap : Snapshot) :
    dkeys (extractPhase url opened snap) = productResultKeys := by
  simp only [extractPhase, dkeys_dset, dkeys_dupd]
  exact dkeys_initProductResult _

theorem extractPhase_dget_status (url : String) (opened : Bool) (snap : Snapshot) :
    dget (extractPhase url opened snap) "status" = some (.s "success") := by
  simp only [extractPhase]
  rw [dget_dset_ne _ _ (by decide), dget_dupd_ne _ _ (by decide),
      dget_dset_ne _ _ (by decide), dget_dset_ne _ _ (by decide),
      dget_dset_ne _ _ (by decide), dget_dupd_ne _ _ (by decide),
      dget_dupd_ne _ _ (by decide), dget_dupd_ne _ _ (by decide),
      dget_dupd_ne _ _ (by decide), dget_dupd_ne _ _ (by decide),
      dget_dupd_ne _ _ (by decide), dget_dupd_ne _ _ (by decide),
      dget_dupd_ne _ _ (by decide), dget_dupd_ne _ _ (by decide)]
  rfl

theorem extractPhase_dget_model (url : String) (opened : Bool) (snap : Snapshot) :
    dget (extractPhase url opened snap) "model"
      = some (((modelFromText (nodeTextL snap.tree)).map
          (fun g => FieldVal.s (strOf (pyStrip g)))).getD (.s "Not found")) := by
  simp only [extractPhase]
  rw [dget_dset_ne _ _ (by decide), dget_dupd_ne _ _ (by decide),
      dget_dset_ne _ _ (by decide), dget_dset_ne _ _ (by decide),
      dget_dset_ne _ _ (by decide), dget_dupd_ne _ _ (by decide),
      dget_dupd_ne _ _ (by decide), dget_dupd_ne _ _ (by decide),
      dget_dupd_ne _ _ (by decide)]
  rw [dget_dupd_self _ _ ?hwm]
  case hwm =>
    rw [dget_dupd_ne _ _ (by decide), dget_dupd_ne _ _ (by decide),
        dget_dupd_ne _ _ (by decide), dget_dupd_ne _ _ (by decide)]
    rfl

theorem extractPhase_dget_in_stock (url : String) (opened : Bool) (snap : Snapshot) :
    dget (extractPhase url opened snap) "in_stock"
      = some (((availabilityOf (nodeTextL snap.tree)).map
          (fun p => FieldVal.b p.1)).getD (.b false)) := by
  simp only [extractPhase]
  rw [dget_dset_ne _ _ (by decide), dget_dupd_ne _ _ (by decide),
      dget_dset_ne _ _ (by decide), dget_dset_ne _ _ (by decide),
      dget_dset_ne _ _ (by decide), dget_dupd_ne _ _ (by decide),
      dget_dupd_ne _ _ (by decide), dget_dupd_ne _ _ (by decide)]
  rw [dget_dupd_self _ _ ?hwi]
  case hwi =>
    rw [dget_dupd_ne _ _ (by decide), dget_dupd_ne _ _ (by decide),
        dget_dupd_ne _ _ (by decide), dget_dupd_ne _ _ (by decide),
        dget_dupd_ne _ _ (by decide)]
    rfl

theorem extractPhase_dget_availability (url : String) (opened : Bool) (snap : Snapshot) :
    dget (extractPhase url opened snap) "availability"
      = some (((availabilityOf (nodeTextL snap.tree)).map
          (fun p => FieldVal.s p.2)).getD (.s "Availability unknown")) := by
  simp only [extractPhase]
  rw [dget_dset_ne _ _ (by decide), dget_dupd_ne _ _ (by decide),
      dget_dset_ne _ _ (by decide), dget_dset_ne _ _ (by decide),
      dget_dset_ne _ _ (by decide), dget_dupd_ne _ _ (by decide),
      dget_dupd_ne _ _ (by decide)]
  rw [dget_dupd_self _ _ ?hwa]
  case hwa =>
    rw [dget_dupd_ne _ _ (by decide), dget_dupd_ne _ _ (by decide),
        dget_dupd_ne _ _ (by decide), dget_dupd_ne _ _ (by decide),
        dget_dupd_ne _ _ (by decide), dget_dupd_ne _ _ (by decide)]
    rfl

theorem extractPhase_dget_upc (url : String) (opened : Bool) (snap : Snapshot) :
    dget (extractPhase url opened snap) "upc"
      = some (((upcChain opened snap).map
          (fun u => FieldVal.s (strOf u))).getD (.s "Not available")) := by
  simp only [extractPhase]
  rw [dget_dset_ne _ _ (by decide), dget_dupd_ne _ _ (by decide),
      dget_dset_ne _ _ (by decide), dget_dset_ne _ _ (by decide),
      dget_dset_ne _ _ (by decide), dget_dupd_ne _ _ (by decide)]
  rw [dget_dupd_self _ _ ?hwu]
  case hwu =>
    rw [dget_dupd_ne _ _ (by decide), dget_dupd_ne _ _ (by decide),
        dget_dupd_ne _ _ (by decide), dget_dupd_ne _ _ (by decide),
        dget_dupd_ne _ _ (by decide), dget_dupd_ne _ _ (by decide),
        dget_dupd_ne _ _ (by decide)]
    rfl

theorem extractPhase_dget_sku (url : String) (opened : Bool) (snap : Snapshot) :
    dget (extractPhase url opened snap) "sku"
      = some (((skuOf url).map FieldVal.s).getD (.s "N/A")) := by
  simp only [extractPhase]
  rw [dget_dset_ne _ _ (by decide), dget_dupd_ne _ _ (by decide),
      dget_dset_ne _ _ (by decide), dget_dset_ne _ _ (by decide),
      dget_dset_ne _ _ (by decide)]
  rw [dget_dupd_self _ _ ?hws]
  case hws =>
    rw [dget_dupd_ne _ _ (by decide), dget_dupd_ne _ _ (by decide),
        dget_dupd_ne _ _ (by decide), dget_dupd_ne _ _ (by decide),
        dget_dupd_ne _ _ (by decide), dget_dupd_ne _ _ (by decide),
        dget_dupd_ne _ _ (by decide), dget_dupd_ne _ _ (by decide)]
    rfl

theorem extractPhase_dget_images (url : String) (opened : Bool) (snap : Snapshot) :
    dget (extractPhase url opened snap) "images"
      = some (.ls (_extract_images snap.tree)) := by
  simp only [extractPhase]
  rw [dget_dset_ne _ _ (by decide), dget_dupd_ne _ _ (by decide),
      dget_dset_ne _ _ (by decide), dget_dset_ne _ _ (by decide)]
  exact dget_dset_self _ _ (by
    rw [dget_dupd_ne _ _ (by decide), dget_dupd_ne _ _ (by decide),
        dget_dupd_ne _ _ (by decide), dget_dupd_ne _ _ (by decide),
        dget_dupd_ne _ _ (by decide), dget_dupd_ne _ _ (by decide),
        dget_dupd_ne _ _ (by decide), dget_dupd_ne _ _ (by decide),
        dget_dupd_ne _ _ (by decide)]
    rfl)

theorem extractPhase_dget_specifications (url : String) (opened : Bool) (snap : Snapshot) :
    dget (extractPhase url opened snap) "specifications"
      = some (.specs (_extract_specifications snap.tree)) := by
  simp only [extractPhase]
  rw [dget_dset_ne _ _ (by decide), dget_dupd_ne _ _ (by decide)]
  exact dget_dset_self _ _ (by
    rw [dget_dset_ne _ _ (by decide), dget_dset_ne _ _ (by decide),
        dget_dupd_ne _ _ (by decide), dget_dupd_ne _ _ (by decide),
        dget_dupd_ne _ _ (by decide), dget_dupd_ne _ _ (by decide),
        dget_dupd_ne _ _ (by decide), dget_dupd_ne _ _ (by decide),
        dget_dupd_ne _ _ (by decide), dget_dupd_ne _ _ (by decide),
        dget_dupd_ne _ _ (by decide)]
    rfl)

/-- The two-update error record of the early-return and exception paths. -/
theorem errorDict_product (u : FieldVal) (m : String) :
    dget (dset (dset (initProductResult u) "status" (.s "error")) "message" (.s m)) "status"
        = some (.s "error")
      ∧ dget (dset (dset (initProductResult u) "status" (.s "error")) "message" (.s m)) "message"
        = some (.s m)
      ∧ dkeys (dset (dset (initProductResult u) "status" (.s "error")) "message" (.s m))
        = productResultKeys := by
  refine ⟨?_, ?_, ?_⟩
  · rw [dget_dset_ne _ _ (by decide)]
    exact dget_dset_self _ _ (by rfl)
  · exact dget_dset_self _ _ (by rw [dget_dset_ne _ _ (by decide)]; rfl)
  · simp only [dkeys_dset]
    exact dkeys_initProductResult _

theorem errorDict_list (m : String) :
    dget (dset (dset initListResult "status" (.s "error")) "message" (.s m)) "status"
        = some (.s "error")
      ∧ dget (dset (dset initListResult "status" (.s "error")) "message" (.s m)) "message"
        = some (.s m)
      ∧ dkeys (dset (dset initListResult "status" (.s "error")) "message" (.s m))
        = listResultKeys := by
  refine ⟨?_, ?_, ?_⟩
  · rw [dget_dset_ne _ _ (by decide)]
    exact dget_dset_self _ _ (by rfl)
  · exact dget_dset_self _ _ (by rw [dget_dset_ne _ _ (by decide)]; rfl)
  · simp only [dkeys_dset]
    rfl

/-! ## Helper lemmas: the image loop is a first-occurrence de-duplication -/

theorem imgLoop_eq_dfAux (l : List HNode) : ∀ (acc seen : List String),
    (∀ y, y ∈ acc ↔ y ∈ seen) →
    imgLoop acc l = acc ++ dfAux seen (l.filterMap fun im =>
      match imgSrcRaw im with
      | some s => if s != "" && containsS s "bestbuy" then some s else none
      | none => none) := by
  induction l with
  | nil =>
      intro acc seen _
      simp [imgLoop, dfAux]
  | cons img rest ih =>
      intro acc seen hequiv
      rw [imgLoop]
      cases hsrc : imgSrcRaw img with
      | none =>
          simp only [List.filterMap_cons, hsrc]
          exact ih acc seen hequiv
      | some s =>
          simp only [List.filterMap_cons, hsrc]
          by_cases hcond : (s != "" && containsS s "bestbuy") = true
          · rw [if_pos hcond]
            by_cases hmem : s ∈ acc
            · rw [if_neg (by simp [hcond, hmem])]
              have hseen : s ∈ seen := (hequiv s).mp hmem
              rw [dfAux, if_pos hseen]
              exact ih acc seen hequiv
            · rw [if_pos (by simp [hcond, hmem])]
              have hseen : s ∉ seen := fun hs => hmem ((hequiv s).mpr hs)
              rw [dfAux, if_neg hseen]
              have hequiv' : ∀ y, y ∈ acc ++ [s] ↔ y ∈ s :: seen := by
                intro y
                simp [List.mem_append, List.mem_cons, hequiv y, or_comm]
              rw [ih (acc ++ [s]) (s :: seen) hequiv']
              simp
          · rw [if_neg (by simp [hcond]), if_neg hcond]
            exact ih acc seen hequiv

theorem _extract_images_eq (tree : HNode) :
    _extract_images tree = dedupFirst (imageCandidates tree) := by
  unfold _extract_images dedupFirst imageCandidates
  simpa using imgLoop_eq_dfAux ((nodeFindAll productImgPred tree).take 10) [] [] (by simp)

theorem mem_imageCandidates {tree : HNode} {u : String} (h : u ∈ imageCandidates tree) :
    containsS u "bestbuy" = true := by
  unfold imageCandidates at h
  obtain ⟨im, -, him⟩ := List.mem_filterMap.mp h
  cases hsrc : imgSrcRaw im with
  | none =>
      simp only [hsrc] at him
      cases him
  | some s =>
      simp only [hsrc] at him
      by_cases hc : (s != "" && containsS s "bestbuy") = true
      · simp only [if_pos hc] at him
        cases him
        have hc2 := hc
        simp only [Bool.and_eq_true] at hc2
        exact hc2.2
      · simp only [if_neg hc] at him
        cases him

theorem imageCandidates_length_le (tree : HNode) : (imageCandidates tree).length ≤ 10 := by
  unfold imageCandidates
  exact le_trans (List.length_filterMap_le _ _) (List.length_take_le _ _)

/-! ## Helper lemmas: specifications shape -/

theorem rowPair_isPair {row : HNode} {e : SpecEntry} (h : rowPair row = some e) :
    e.isPair = true := by
  unfold rowPair at h
  cases hc : nodeFindAll (fun tg _ _ => tg == "td" || tg == "div") row with
  | nil => rw [hc] at h; cases h
  | cons c0 tl =>
      cases tl with
      | nil => rw [hc] at h; cases h
      | cons c1 tl2 =>
          rw [hc] at h
          by_cases hcond : (strOf (nodeStripTextL c0) != ""
              && strOf (nodeStripTextL c1) != "") = true
          · simp only [if_pos hcond] at h
            cases h
            rfl
          · simp only [if_neg hcond] at h
            cases h

/-! ## Helper lemmas: disclosure loop -/

theorem elemLoop_iff (l : List ElemBehavior) :
    elemLoop l = true ↔ ∃ e ∈ l, elemClickSucceeds e = true := by
  induction l with
  | nil => simp [elemLoop]
  | cons e rest ih =>
      rw [elemLoop]
      by_cases h : elemClickSucceeds e = true
      · simp [h]
      · simp only [if_neg h, ih]
        constructor
        · rintro ⟨e', he', hs⟩
          exact ⟨e', List.mem_cons_of_mem _ he', hs⟩
        · rintro ⟨e', he', hs⟩
          rcases List.mem_cons.mp he' with rfl | he''
          · exact absurd hs h
          · exact ⟨e', he'', hs⟩

theorem discloseSpecs_iff (strats : List StratBehavior) :
    discloseSpecs strats = true
      ↔ ∃ s ∈ strats, s.findRaises = false ∧ ∃ e ∈ s.elems, elemClickSucceeds e = true := by
  induction strats with
  | nil => simp [discloseSpecs]
  | cons s rest ih =>
      rw [discloseSpecs]
      by_cases h : (!s.findRaises && elemLoop s.elems) = true
      · rw [if_pos h]
        simp only [Bool.and_eq_true, Bool.not_eq_true'] at h
        simp only [true_iff]
        exact ⟨s, List.mem_cons_self _ _, h.1, (elemLoop_iff _).mp h.2⟩
      · rw [if_neg h, ih]
        constructor
        · rintro ⟨s', hs', hf, he⟩
          exact ⟨s', List.mem_cons_of_mem _ hs', hf, he⟩
        · rintro ⟨s', hs', hf, he⟩
          rcases List.mem_cons.mp hs' with rfl | hs''
          · exact absurd (by simp [hf, (elemLoop_iff _).mpr he]) h
          · exact ⟨s', hs'', hf, he⟩

/-! ## Claim theorems -/

/-- C2: every input failing the domain/path validation makes both
`scrape_bestbuy_product` and `scrape_bestbuy_first_product` return
immediately with status `error` and the invalid-input message, touching
the browser collaborator zero times (whatever the browser session would
have produced). -/
theorem claim_C2_invalid_input_no_browser :
    (∀ (inp : PyInput) (sess : Session), productInputValid inp = false →
      (scrape_bestbuy_product inp sess).usedBrowser = false
      ∧ dget (scrape_bestbuy_product inp sess).result "status" = some (.s "error")
      ∧ dget (scrape_bestbuy_product inp sess).result "message"
          = some (.s (invalidProductMsg inp)))
    ∧ (∀ (inp : PyInput) (sess : ListSession), searchInputValid inp = false →
      (scrape_bestbuy_first_product inp sess).usedBrowser = false
      ∧ dget (scrape_bestbuy_first_product inp sess).result "status" = some (.s "error")
      ∧ dget (scrape_bestbuy_first_product inp sess).result "message"
          = some (.s (invalidSearchMsg inp))) := by
  constructor
  · intro inp sess hinv
    cases inp with
    | nonstr =>
        exact ⟨rfl, (errorDict_product .obj "product_url must be a string").1,
          (errorDict_product .obj "product_url must be a string").2.1⟩
    | str url =>
        have hv : productUrlOkStr url = false := hinv
        have hrun : scrape_bestbuy_product (.str url) sess
            = { result := dset (dset (initProductResult (.s url)) "status" (.s "error"))
                  "message" (.s "Invalid Best Buy product URL"),
                usedBrowser := false } := by
          simp only [scrape_bestbuy_product]
          rw [if_neg (by simp [hv])]
        rw [hrun]
        exact ⟨rfl, (errorDict_product (.s url) "Invalid Best Buy product URL").1,
          (errorDict_product (.s url) "Invalid Best Buy product URL").2.1⟩
  · intro inp sess hinv
    cases inp with
    | nonstr =>
        exact ⟨rfl, (errorDict_list "search_url must be a string").1,
          (errorDict_list "search_url must be a string").2.1⟩
    | str url =>
        have hv : searchUrlOkStr url = false := hinv
        have hrun : scrape_bestbuy_first_product (.str url) sess
            = { result := dset (dset initListResult "status" (.s "error"))
                  "message" (.s "Invalid Best Buy search/list URL"),
                usedBrowser := false } := by
          simp only [scrape_bestbuy_first_product]
          rw [if_neg (by simp [hv])]
        rw [hrun]
        exact ⟨rfl, (errorDict_list "Invalid Best Buy search/list URL").1,
          (errorDict_list "Invalid Best Buy search/list URL").2.1⟩

/-- Witness for C2 at concrete invalid inputs: a URL missing the
`bestbuy.com` marker, a non-string input, and a Best Buy URL missing the
search markers. -/
theorem claim_C2_witness :
    (scrape_bestbuy_product (.str "https://example.com/product/x") (.exn "boom")).usedBrowser
        = false
    ∧ dget (scrape_bestbuy_product .nonstr (.exn "boom")).result "message"
        = some (.s "product_url must be a string")
    ∧ (scrape_bestbuy_first_product (.str "https://www.bestbuy.com/cart")
        (.ok (HNode.text "x"))).usedBrowser = false :=
  ⟨(claim_C2_invalid_input_no_browser.1 _ (.exn "boom") (by decide)).1,
   (claim_C2_invalid_input_no_browser.1 .nonstr (.exn "boom") (by decide)).2.2,
   (claim_C2_invalid_input_no_browser.2 _ (.ok (HNode.text "x")) (by decide)).1⟩

/-- C8: on every exit path — invalid input, an exception escaping the
browser phase, or a completed extraction — `scrape_bestbuy_product`
returns a record with exactly the sixteen documented keys in order, and
a status that is either `success` or `error`; faults surface as `error`
records, never as a raw exception. -/
theorem claim_C8_record_always_fully_formed :
    ∀ (inp : PyInput) (sess : Session),
      dkeys (scrape_bestbuy_product inp sess).result = productResultKeys
      ∧ (dget (scrape_bestbuy_product inp sess).result "status" = some (.s "success")
         ∨ dget (scrape_bestbuy_product inp sess).result "status" = some (.s "error")) := by
  intro inp sess
  cases inp with
  | nonstr =>
      exact ⟨(errorDict_product .obj "product_url must be a string").2.2,
        Or.inr (errorDict_product .obj "product_url must be a string").1⟩
  | str url =>
      by_cases hv : productUrlOkStr url = true
      · cases sess with
        | exn m =>
            have hrun : scrape_bestbuy_product (.str url) (.exn m)
                = { result := dset (dset (initProductResult (.s url)) "status" (.s "error"))
                      "message" (.s ("Scraping failed: " ++ m)),
                    usedBrowser := true } := by
              simp only [scrape_bestbuy_product]
              rw [if_pos hv]
            rw [hrun]
            exact ⟨(errorDict_product (.s url) _).2.2, Or.inr (errorDict_product (.s url) _).1⟩
        | ok disc snap =>
            have hrun : scrape_bestbuy_product (.str url) (.ok disc snap)
                = { result := extractPhase url (discloseSpecs disc) snap,
                    usedBrowser := true } := by
              simp only [scrape_bestbuy_product]
              rw [if_pos hv]
            rw [hrun]
            exact ⟨dkeys_extractPhase url _ snap, Or.inl (extractPhase_dget_status url _ snap)⟩
      · have hrun : scrape_bestbuy_product (.str url) sess
            = { result := dset (dset (initProductResult (.s url)) "status" (.s "error"))
                  "message" (.s "Invalid Best Buy product URL"),
                usedBrowser := false } := by
          simp only [scrape_bestbuy_product]
          rw [if_neg hv]
        rw [hrun]
        exact ⟨(errorDict_product (.s url) _).2.2, Or.inr (errorDict_product (.s url) _).1⟩

/-- C9: the disclosure activator is a total boolean outcome (it never
raises): it reports `opened = true` exactly when some locator strategy's
`find_elements` did not raise and some matched element survived the
scroll and one of the two click paths — the bounded wait's outcome plays
no role (both wait branches assume success), so a click with an expired
wait still yields `opened = true`, and no matching element under every
strategy yields `opened = false`, not an error. -/
theorem claim_C9_disclosure_never_raises :
    (∀ strats : List StratBehavior,
      discloseSpecs strats = true
        ↔ ∃ s ∈ strats, s.findRaises = false ∧ ∃ e ∈ s.elems, elemClickSucceeds e = true)
    ∧ (∀ (e : ElemBehavior) (w : Bool),
        elemClickSucceeds { e with waitObserved := w } = elemClickSucceeds e) :=
  ⟨discloseSpecs_iff, fun _ _ => rfl⟩

/-- C10: the product-URL validation is plain substring containment — any
string containing both `bestbuy.com` and `/product/` anywhere passes it
and the run proceeds to touch the browser, with no scheme, host or path
structure checked. -/
theorem claim_C10_validation_is_substring_containment :
    ∀ (s : String) (sess : Session),
      containsS s "bestbuy.com" = true → containsS s "/product/" = true →
      productUrlOkStr s = true
      ∧ (scrape_bestbuy_product (.str s) sess).usedBrowser = true := by
  intro s sess h1 h2
  have hv : productUrlOkStr s = true := by simp [productUrlOkStr, h1, h2]
  refine ⟨hv, ?_⟩
  simp only [scrape_bestbuy_product]
  rw [if_pos hv]
  cases sess <;> rfl

/-- Witness for C10: a URL whose host is `evil.example` and which only
mentions `bestbuy.com/product/` inside its query string still reaches
the browser. -/
theorem claim_C10_witness :
    productUrlOkStr "https://evil.example/?q=bestbuy.com/product/" = true
    ∧ (scrape_bestbuy_product (.str "https://evil.example/?q=bestbuy.com/product/")
        (.exn "connection refused")).usedBrowser = true :=
  claim_C10_validation_is_substring_containment _ _ (by decide) (by decide)

/-! ## Helper lemmas: any in-bounds labeled digit run is accepted -/

theorem takeWhile_all {p : Char → Bool} {l : List Char} (h : l.all p = true) :
    l.takeWhile p = l := by
  induction l with
  | nil => rfl
  | cons c cs ih =>
      simp only [List.all_cons, Bool.and_eq_true] at h
      simp [List.takeWhile_cons, h.1, ih h.2]

theorem digit_not_sep {c : Char} (h : c.isDigit = true) : isLabelSep c = false := by
  have hne : c ≠ ':' := fun e => by
    rw [e] at h
    exact absurd h (by decide)
  unfold isLabelSep
  rw [digit_not_space h]
  simp [hne]

theorem dropWhile_sep_digits {d : List Char} (h : d.all Char.isDigit = true) :
    d.dropWhile isLabelSep = d := by
  cases d with
  | nil => rfl
  | cons c cs =>
      simp only [List.all_cons, Bool.and_eq_true] at h
      simp [List.dropWhile_cons, digit_not_sep h.1]

/-- No cross-validation is performed on candidates: any digit run of
length 8–14 directly after a `UPC:` label is returned by the
whole-document pattern ladder. -/
theorem upcLabeled_accepts {d : List Char} (hdig : d.all Char.isDigit = true)
    (hlo : 8 ≤ d.length) (hhi : d.length ≤ 14) :
    upcPatterns ('U' :: 'P' :: 'C' :: ':' :: d) = some d := by
  have hlab : labelAt ["upc".toList] ('U' :: 'P' :: 'C' :: ':' :: d) = some (':' :: d) := rfl
  have hdrop : (':' :: d).dropWhile isLabelSep = d := by
    rw [List.dropWhile_cons]
    simp only [show isLabelSep ':' = true from rfl, if_true]
    exact dropWhile_sep_digits hdig
  have hcap : digitRunCapture 8 14 d = some d := by
    simp only [digitRunCapture]
    rw [takeWhile_all hdig, if_pos hlo, List.take_of_length_le hhi]
  have hat : labeledDigitsAt ["upc".toList] isLabelSep 8 14 ('U' :: 'P' :: 'C' :: ':' :: d)
      = some d := by
    rw [labeledDigitsAt, hlab, Option.some_bind, hdrop, hcap]
  have hsearch : searchLabeledDigits ["upc".toList] isLabelSep 8 14
      ('U' :: 'P' :: 'C' :: ':' :: d) = some d := by
    rw [searchLabeledDigits, scanFirst, hat]
    rfl
  have hguard : lenGuard 8 14 (some d) = some d := by
    simp only [lenGuard, Option.some_bind, pyStrip_all_digits hdig]
    rw [if_pos (by simp [hlo, hhi])]
  unfold upcPatterns
  rw [hsearch, hguard]
  rfl

/-- C7: when no strategy produces a candidate the record keeps
`upc = "Not available"` with status `success`; every candidate the chain
returns is a digit run of length 8–14, a candidate surviving only the
line-proximity fallback has length 11–14, the first strategy (in the
source's order) to produce a candidate decides the result, and any
in-bounds digit run after a label is accepted without further
validation. -/
theorem claim_C7_upc_strategy_chain :
    (∀ (url : String) (disc : List StratBehavior) (snap : Snapshot),
      productUrlOkStr url = true →
      upcChain (discloseSpecs disc) snap = none →
      dget (scrape_bestbuy_product (.str url) (.ok disc snap)).result "upc"
          = some (.s "Not available")
      ∧ dget (scrape_bestbuy_product (.str url) (.ok disc snap)).result "status"
          = some (.s "success"))
    ∧ (∀ (opened : Bool) (snap : Snapshot) (u : List Char),
        upcChain opened snap = some u → upcOk 8 14 u)
    ∧ (∀ (opened : Bool) (snap : Snapshot) (u : List Char),
        upcStrats123 opened snap = none → upcChain opened snap = some u → upcOk 11 14 u)
    ∧ (∀ (opened : Bool) (snap : Snapshot) (u : List Char),
        upcStrats123 opened snap = some u → upcChain opened snap = some u)
    ∧ (∀ (snap : Snapshot) (u : List Char),
        upcFromLivePanel snap.live = some u → upcChain true snap = some u)
    ∧ (∀ d : List Char, d.all Char.isDigit = true → 8 ≤ d.length → d.length ≤ 14 →
        upcPatterns ('U' :: 'P' :: 'C' :: ':' :: d) = some d) := by
  refine ⟨?_, ?_, ?_, ?_, ?_, ?_⟩
  · intro url disc snap hv hchain
    have hrun : scrape_bestbuy_product (.str url) (.ok disc snap)
        = { result := extractPhase url (discloseSpecs disc) snap, usedBrowser := true } := by
      simp only [scrape_bestbuy_product]
      rw [if_pos hv]
    rw [hrun]
    constructor
    · rw [extractPhase_dget_upc, hchain]
      rfl
    · exact extractPhase_dget_status url _ snap
  · intro _ _ _ h
    exact upcChain_sound h
  · intro _ _ _ h1 h2
    exact upcChain_from_lines h1 h2
  · intro opened snap u h
    rw [upcChain_split, h]
    rfl
  · intro snap u h
    rw [upcChain_split]
    simp [upcStrats123, h]
  · intro d h1 h2 h3
    exact upcLabeled_accepts h1 h2 h3

/-- Witness for C7: a snapshot with no UPC-like content keeps the
sentinel with status success, and a concrete labeled 12-digit run is
accepted verbatim. -/
theorem claim_C7_witness :
    dget (scrape_bestbuy_product (.str "https://www.bestbuy.com/product/widget-777")
        (.ok [] ⟨.elem "html" [] [] [.text "no code here"], []⟩)).result "upc"
        = some (.s "Not available")
    ∧ upcPatterns ('U' :: 'P' :: 'C' :: ':' :: "012345678905".toList)
        = some ("012345678905".toList) :=
  ⟨(claim_C7_upc_strategy_chain.1 _ [] _ (by decide) (by decide)).1,
   claim_C7_upc_strategy_chain.2.2.2.2.2 _ (by decide) (by decide) (by decide)⟩

/-- C5: the specifications result is either 1–5 real key/value pairs or
exactly the single placeholder note — never empty, never mixed. -/
theorem claim_C5_specifications_shape :
    ∀ tree : HNode,
      _extract_specifications tree = [SpecEntry.note "No specifications found"]
      ∨ (1 ≤ (_extract_specifications tree).length
         ∧ (_extract_specifications tree).length ≤ 5
         ∧ (_extract_specifications tree).all SpecEntry.isPair = true) := by
  intro tree
  unfold _extract_specifications
  cases hfind : nodeFind (fun tg cl _ =>
      tg == "div" && cl.any (fun c => containsL (lowerL c.toList) ("specification".toList))) tree with
  | none =>
      simp only [hfind]
      left
      rfl
  | some sec =>
      simp only [hfind]
      set S := ((nodeFindAll (fun tg cl _ =>
          (tg == "tr" || tg == "div")
            && cl.any (fun c => containsL (lowerL c.toList) ("row".toList))) sec).take 5).filterMap
        rowPair with hS
      by_cases hemp : S.isEmpty = true
      · rw [if_pos hemp]
        left
        rfl
      · rw [if_neg hemp]
        right
        have hne : S ≠ [] := by
          cases hSc : S with
          | nil => rw [hSc] at hemp; exact absurd rfl hemp
          | cons a l => simp
        refine ⟨?_, ?_, ?_⟩
        · exact Nat.succ_le_of_lt (List.length_pos.mpr hne)
        · rw [hS]
          exact le_trans (List.length_filterMap_le _ _) (List.length_take_le _ _)
        · rw [List.all_eq_true]
          intro e he
          rw [hS] at he
          obtain ⟨row, -, hrow⟩ := List.mem_filterMap.mp he
          exact rowPair_isPair hrow

/-- C4 counterexample: an image whose source merely mentions `bestbuy`
in its path is collected although its host is `evil.example` — the
source checks substring containment on the URL, not the host. -/
theorem claim_C4_counterexample :
    _extract_images (.elem "html" [] []
        [.elem "img" ["product-image"] [("src", "https://evil.example/bestbuy.jpg")] []])
      = ["https://evil.example/bestbuy.jpg"]
    ∧ claimHostReferencesRetailer "https://evil.example/bestbuy.jpg" = false := by
  constructor
  · decide
  · decide

/-- C4 (amended): the image list is the first-occurrence de-duplication,
in document order, of the sources of the first ten product-image
elements; it has length at most 10, no duplicates, and every entry
contains `bestbuy` as a substring of the whole URL (not a host check). -/
theorem claim_C4_images_amended :
    ∀ tree : HNode,
      _extract_images tree = dedupFirst (imageCandidates tree)
      ∧ (_extract_images tree).length ≤ 10
      ∧ (_extract_images tree).Nodup
      ∧ List.Sublist (_extract_images tree) (imageCandidates tree)
      ∧ (_extract_images tree).all (fun u => containsS u "bestbuy") = true := by
  intro tree
  have heq := _extract_images_eq tree
  refine ⟨heq, ?_, ?_, ?_, ?_⟩
  · rw [heq]
    exact le_trans (List.Sublist.length_le (dfAux_sublist [] _)) (imageCandidates_length_le tree)
  · rw [heq]
    exact dfAux_nodup [] _
  · rw [heq]
    exact dfAux_sublist [] _
  · rw [heq, List.all_eq_true]
    intro u hu
    exact mem_imageCandidates (mem_dfAux.mp hu).1

/-- C1 counterexample: with no disclosure interaction at all
(`discloseSpecs [] = false`), a document whose ambient text reads
`Model: WDGT5000` still yields `model = "WDGT5000"` — the model is
extracted from the whole-document text, not gated on the panel, so the
claim's "keeps the sentinel when the panel was not disclosed" is false. -/
theorem claim_C1_counterexample :
    discloseSpecs [] = false
    ∧ dget (scrape_bestbuy_product
        (.str "https://www.bestbuy.com/product/widget-9999")
        (.ok [] ⟨.elem "html" [] []
            [.elem "h1" [] [] [.text "Widget"], .text " Model: WDGT5000 in box"], []⟩)).result
        "model"
      = some (.s "WDGT5000") := by
  constructor
  · rfl
  · decide

/-- C1 (amended): the model field is computed unconditionally from the
whole-document text — whatever the disclosure outcome — by the
case-insensitive regex `Model[:\s]*([A-Z0-9]+/[A-Z0-9]+)(?:\s|SKU)`,
falling back to `Model[:\s]*([A-Z0-9]+)`; only when neither matches does
the field keep the sentinel `"Not found"`. -/
theorem claim_C1_model_amended :
    ∀ (url : String) (disc : List StratBehavior) (snap : Snapshot),
      productUrlOkStr url = true →
      dget (scrape_bestbuy_product (.str url) (.ok disc snap)).result "model"
        = some (((modelFromText (nodeTextL snap.tree)).map
            (fun g => FieldVal.s (strOf (pyStrip g)))).getD (.s "Not found")) := by
  intro url disc snap hv
  have hrun : scrape_bestbuy_product (.str url) (.ok disc snap)
      = { result := extractPhase url (discloseSpecs disc) snap, usedBrowser := true } := by
    simp only [scrape_bestbuy_product]
    rw [if_pos hv]
  rw [hrun]
  exact extractPhase_dget_model url _ snap

/-- Witness for C1 (amended) at a concrete slash-form model string. -/
theorem claim_C1_witness :
    dget (scrape_bestbuy_product (.str "https://www.bestbuy.com/product/widget-9999")
        (.ok [] ⟨.elem "html" [] [] [.text "Model: QX55/AA box"], []⟩)).result "model"
      = some (.s "QX55/AA") := by
  rw [claim_C1_model_amended _ [] _ (by decide)]
  decide

/-- C3 counterexample: for a validated product URL ending in a slash the
URL's last non-empty path segment is `widget-123`, but the source takes
the last (empty) slash-chunk and keeps the sentinel `N/A` — so "sku
equals the last non-empty path segment whenever one exists" is false. -/
theorem claim_C3_counterexample :
    claimSku "https://www.bestbuy.com/product/widget-123/" = some "widget-123"
    ∧ dget (scrape_bestbuy_product (.str "https://www.bestbuy.com/product/widget-123/")
        (.ok [] ⟨.elem "html" [] [] [], []⟩)).result "sku" = some (.s "N/A") := by
  constructor
  · decide
  · decide

/-- C3 (amended): the sku field equals the URL's last `/`-separated
chunk with everything from its first `?` removed, provided that chunk is
non-empty, does not start with `?`, and the stripped value is longer
than 3 characters; otherwise the sentinel `N/A` is kept.  The value
depends only on the URL, independent of the snapshot and disclosure
outcome. -/
theorem claim_C3_sku_amended :
    ∀ (url : String) (disc : List StratBehavior) (snap : Snapshot),
      productUrlOkStr url = true →
      dget (scrape_bestbuy_product (.str url) (.ok disc snap)).result "sku"
        = some (((skuOf url).map FieldVal.s).getD (.s "N/A")) := by
  intro url disc snap hv
  have hrun : scrape_bestbuy_product (.str url) (.ok disc snap)
      = { result := extractPhase url (discloseSpecs disc) snap, usedBrowser := true } := by
    simp only [scrape_bestbuy_product]
    rw [if_pos hv]
  rw [hrun]
  exact extractPhase_dget_sku url _ snap

/-- Witness for C3 (amended) at a URL with a real trailing segment. -/
theorem claim_C3_witness :
    dget (scrape_bestbuy_product (.str "https://www.bestbuy.com/product/J123456")
        (.ok [] ⟨.elem "html" [] [] [], []⟩)).result "sku" = some (.s "J123456") := by
  rw [claim_C3_sku_amended _ [] _ (by decide)]
  decide

/-- C6 counterexample: in a document whose text mentions `out of stock`
strictly before `in stock`, the first match in document order is
`out of stock`, yet the record reports `In Stock` / `in_stock = true` —
the source tests the `in stock` substring first regardless of position,
so "the first match in document order wins" is false. -/
theorem claim_C6_counterexample :
    claimAvailabilityFirstMatch
        "Currently out of stock online. More are in stock at the nearby store.".toList
      = some (false, "Out of Stock")
    ∧ dget (scrape_bestbuy_product (.str "https://www.bestbuy.com/product/widget-55")
        (.ok [] ⟨.elem "html" [] []
            [.text "Currently out of stock online. More are in stock at the nearby store."],
          []⟩)).result "availability"
      = some (.s "In Stock")
    ∧ dget (scrape_bestbuy_product (.str "https://www.bestbuy.com/product/widget-55")
        (.ok [] ⟨.elem "html" [] []
            [.text "Currently out of stock online. More are in stock at the nearby store."],
          []⟩)).result "in_stock"
      = some (.b true) := by
  refine ⟨by decide, by decide, by decide⟩

/-- C6 (amended): availability is inferred by case-insensitive substring
search of the whole document text where the `in stock` test takes
priority over `out of stock` regardless of document position; when
neither substring occurs the defaults
(`in_stock = false`, `availability = "Availability unknown"`) are kept. -/
theorem claim_C6_availability_amended :
    (∀ (url : String) (disc : List StratBehavior) (snap : Snapshot),
      productUrlOkStr url = true →
      dget (scrape_bestbuy_product (.str url) (.ok disc snap)).result "availability"
          = some (((availabilityOf (nodeTextL snap.tree)).map
              (fun p => FieldVal.s p.2)).getD (.s "Availability unknown"))
      ∧ dget (scrape_bestbuy_product (.str url) (.ok disc snap)).result "in_stock"
          = some (((availabilityOf (nodeTextL snap.tree)).map
              (fun p => FieldVal.b p.1)).getD (.b false)))
    ∧ (∀ t : List Char, containsL (lowerL t) ("in stock".toList) = true →
        availabilityOf t = some (true, "In Stock")) := by
  constructor
  · intro url disc snap hv
    have hrun : scrape_bestbuy_product (.str url) (.ok disc snap)
        = { result := extractPhase url (discloseSpecs disc) snap, usedBrowser := true } := by
      simp only [scrape_bestbuy_product]
      rw [if_pos hv]
    rw [hrun]
    exact ⟨extractPhase_dget_availability url _ snap, extractPhase_dget_in_stock url _ snap⟩
  · intro t ht
    unfold availabilityOf
    rw [if_pos ht]

/-- Witness for C6 (amended). -/
theorem claim_C6_witness :
    dget (scrape_bestbuy_product (.str "https://www.bestbuy.com/product/widget-55")
        (.ok [] ⟨.elem "html" [] [] [.text "item in stock now"], []⟩)).result "availability"
      = some (.s "In Stock")
    ∧ availabilityOf "xyz In Stock".toList = some (true, "In Stock") := by
  constructor
  · rw [(claim_C6_availability_amended.1 _ [] _ (by decide)).1]
    decide
  · exact claim_C6_availability_amended.2 _ (by decide)

end Scraper
